import Mathlib

/-!
Verification of the TTauri widget layout/invalidation engine
(`TTauri::GUI::Widgets::Widget`), shallowly embedded from the source of
`Widget.cpp`.  Floating point sizes and solver values are modelled as exact
rationals; the external rhea solver is modelled through the handle-based
constraint store the widget code manipulates (`addConstraint`,
`replaceConstraint`, `removeConstraint`).
-/

namespace TTauri

/-- 2D vector; the source `vec` is used both as an extent
(`width()`/`height()` accessors) and as a point/offset. -/
structure vec where
  x : ℚ
  y : ℚ
deriving DecidableEq

/-- The accessor `vec::width()`. -/
def vec.width (v : vec) : ℚ := v.x

/-- The accessor `vec::height()`. -/
def vec.height (v : vec) : ℚ := v.y

instance : Sub vec := ⟨fun a b => ⟨a.x - b.x, a.y - b.y⟩⟩

/-- 3D translation vector, modelling the `mat::T(x, y, z)` translation
transforms derived during layout. -/
structure vec3 where
  x : ℚ
  y : ℚ
  z : ℚ
deriving DecidableEq

/-- Axis-aligned rectangle `aarect{x, y, width, height}`. -/
structure aarect where
  x : ℚ
  y : ℚ
  width : ℚ
  height : ℚ
deriving DecidableEq

/-- Rounding a rational to the nearest integer device unit, modelling
`round()` on floats. -/
def roundQ (q : ℚ) : ℚ := ((round q : ℤ) : ℚ)

/-- Componentwise `round(aarect)`: every component rounded to integer device units. -/
def roundR (r : aarect) : aarect :=
  ⟨roundQ r.x, roundQ r.y, roundQ r.width, roundQ r.height⟩

/-- The offset `(x, y)` of a rectangle. -/
def aarect.offset (r : aarect) : vec := ⟨r.x, r.y⟩

/-- The extent `(width, height)` of a rectangle. -/
def aarect.extent (r : aarect) : vec := ⟨r.width, r.height⟩

/-- Rectangle membership, used by `hitBoxTest` via `rectangle().contains`. -/
def aarect.contains (r : aarect) (p : vec) : Bool :=
  decide (r.x ≤ p.x ∧ p.x ≤ r.x + r.width ∧ r.y ≤ p.y ∧ p.y ≤ r.y + r.height)

/-- The solver variables of one widget that the `Widget.cpp` code
constrains: `width`, `height`, `left`, `bottom`. -/
inductive Var where
  | width
  | height
  | left
  | bottom
deriving DecidableEq

/-- Constraint relation: `>=` or `==` as they appear in the source. -/
inductive Rel where
  | ge
  | eq
deriving DecidableEq

/-- rhea constraint strengths used by the source: required (default),
`rhea::strength::strong()`, `rhea::strength::weak()`. -/
inductive Strength where
  | required
  | strong
  | weak
deriving DecidableEq

/-- One registered linear constraint `var rel rhs` at a given strength. -/
structure Constraint where
  var : Var
  rel : Rel
  rhs : ℚ
  strength : Strength
deriving DecidableEq

/-- The solver-side state a widget mutates through the window:
a store of constraints indexed by opaque handles. -/
structure Window where
  nextHandle : ℕ
  constraints : List (ℕ × Constraint)
deriving DecidableEq

/-- A window with no constraints registered. -/
def window0 : Window := ⟨0, []⟩

/-- The solver operation `window.addConstraint(expr[, strength])`: registers the constraint and
returns the fresh handle. -/
def Window.addConstraint (win : Window) (c : Constraint) : ℕ × Window :=
  (win.nextHandle, ⟨win.nextHandle + 1, (win.nextHandle, c) :: win.constraints⟩)

/-- The solver operation `window.removeConstraint(handle)`. -/
def Window.removeConstraint (win : Window) (h : ℕ) : Window :=
  ⟨win.nextHandle, win.constraints.filter (fun p => p.1 ≠ h)⟩

/-- The solver operation `window.replaceConstraint(handle, expr[, strength])`: one atomic solver
operation that swaps the constraint behind the handle, returning the new
handle. -/
def Window.replaceConstraint (win : Window) (h : ℕ) (c : Constraint) : ℕ × Window :=
  (win.removeConstraint h).addConstraint c

/-- A primitive solver operation, used to expose the order in which a
mutation talks to the solver. -/
inductive SolverOp where
  | add (c : Constraint)
  | remove (h : ℕ)
  | replace (h : ℕ) (c : Constraint)
deriving DecidableEq

/-- Applying a single solver operation to the constraint store.
`replace` is atomic: the store goes from old to new in one step. -/
def applyOp (win : Window) : SolverOp → Window
  | .add c => (win.addConstraint c).2
  | .remove h => win.removeConstraint h
  | .replace h c => (win.replaceConstraint h c).2

/-- Applying a sequence of solver operations left to right; prefixes of the
sequence give the intermediate solver states during a widget mutation. -/
def applyOps (win : Window) (ops : List SolverOp) : Window :=
  ops.foldl applyOp win

/-- Does the store hold an equality (fixed) constraint on variable `vr`? -/
def hasVarEq (win : Window) (vr : Var) : Bool :=
  win.constraints.any (fun p => decide (p.2.var = vr ∧ p.2.rel = Rel.eq))

/-- Does the store hold a fixed (equality) constraint on `width`? -/
def hasFixedWidthC (win : Window) : Bool := hasVarEq win Var.width

/-- Does the store hold a fixed (equality) constraint on `height`? -/
def hasFixedHeightC (win : Window) : Bool := hasVarEq win Var.height

/-- The widget state from `Widget.hpp`/`Widget.cpp`.  `widthValue`,
`heightValue`, `leftValue`, `bottomValue` are the current solver values of
this widget's variables as read by `width.value()` etc.; the layout pass
never mutates the solver, so they are carried as fields. -/
structure Widget where
  id : ℕ := 0
  elevation : ℚ := 0
  /-- Modelled from the spec: `nestingLevel()` lives in the header (not
  under src); per the spec it is the nesting depth used to index the
  theme's border/fill color tables. -/
  nestingLevel : ℤ := 0
  enabled : Bool := true
  hover : Bool := false
  focus : Bool := false
  minimumExtent : vec := ⟨0, 0⟩
  preferedExtent : vec := ⟨0, 0⟩
  fixedExtent : vec := ⟨0, 0⟩
  minimumWidthConstraint : ℕ := 0
  minimumHeightConstraint : ℕ := 0
  preferedWidthConstraint : ℕ := 0
  preferedHeightConstraint : ℕ := 0
  fixedWidthConstraint : ℕ := 0
  fixedHeightConstraint : ℕ := 0
  forceLayout : Bool := false
  forceRedraw : Bool := false
  widthValue : ℚ := 0
  heightValue : ℚ := 0
  leftValue : ℚ := 0
  bottomValue : ℚ := 0
  widthChangePreviousValue : ℚ := 0
  heightChangePreviousValue : ℚ := 0
  extent : vec := ⟨0, 0⟩
  offsetFromParent : vec := ⟨0, 0⟩
  offsetFromWindow : vec := ⟨0, 0⟩
  windowRectangle : aarect := ⟨0, 0, 0, 0⟩
  toWindowTransform : vec3 := ⟨0, 0, 0⟩
  fromWindowTransform : vec3 := ⟨0, 0, 0⟩
  /-- Modelled from the spec: `clippingRectangle()` lives in the header
  (not under src); the draw pass narrows the inherited clip to it. -/
  clippingRectangle : aarect := ⟨0, 0, 0, 0⟩
deriving DecidableEq

/-- Modelled from the spec: `rectangle()` lives in the header (not under
src); it is the widget's own rectangle in local coordinates, its extent at
the local origin. -/
def Widget.rectangle (w : Widget) : aarect := ⟨0, 0, w.extent.x, w.extent.y⟩

/-- Modelled from the spec: the linear-arithmetic solver itself is an
external collaborator (its code is not under src).  Per the spec it
resolves each variable against the registered constraint set, and reading
a variable before any explicit solve reflects the most recent accepted
constraints: the strongest lower bound registered for the variable
(`0` when unconstrained). -/
def solverValue (win : Window) (v : Var) : ℚ :=
  (win.constraints.filterMap
    (fun p => if p.2.var = v then some p.2.rhs else none)).foldr max 0

/-- The constructor `Widget::Widget(window, parent, defaultExtent)`:
`elevation = parent ? parent->elevation + 1 : 0`, `enabled = true`,
`minimumExtent = preferedExtent = defaultExtent`, and four base
constraints registered: `width >= min.width` and `height >= min.height`
(required), `width >= pref.width` and `height >= pref.height` (strong).
The solver-value fields are initialised from the spec-modelled solver. -/
def mkWidget (win : Window) (parentElevation : Option ℚ) (defaultExtent : vec) :
    Widget × Window :=
  let c1 : Constraint := ⟨.width, .ge, defaultExtent.width, .required⟩
  let r1 := win.addConstraint c1
  let c2 : Constraint := ⟨.height, .ge, defaultExtent.height, .required⟩
  let r2 := r1.2.addConstraint c2
  let c3 : Constraint := ⟨.width, .ge, defaultExtent.width, .strong⟩
  let r3 := r2.2.addConstraint c3
  let c4 : Constraint := ⟨.height, .ge, defaultExtent.height, .strong⟩
  let r4 := r3.2.addConstraint c4
  ({ elevation := match parentElevation with | some e => e + 1 | none => 0
     enabled := true
     minimumExtent := defaultExtent
     preferedExtent := defaultExtent
     minimumWidthConstraint := r1.1
     minimumHeightConstraint := r2.1
     preferedWidthConstraint := r3.1
     preferedHeightConstraint := r4.1
     widthValue := solverValue r4.2 .width
     heightValue := solverValue r4.2 .height
     leftValue := solverValue r4.2 .left
     bottomValue := solverValue r4.2 .bottom }, r4.2)

/-- The setter `Widget::setMinimumExtent(vec)`: when the new value differs from the
stored one, both minimum constraints are swapped via `replaceConstraint`.
Returns the updated widget, the updated solver store, and the trace of
solver operations issued, in source order. -/
def setMinimumExtent (w : Widget) (win : Window) (v : vec) :
    Widget × Window × List SolverOp :=
  if v ≠ w.minimumExtent then
    let cW : Constraint := ⟨.width, .ge, v.width, .required⟩
    let rW := win.replaceConstraint w.minimumWidthConstraint cW
    let cH : Constraint := ⟨.height, .ge, v.height, .required⟩
    let rH := rW.2.replaceConstraint w.minimumHeightConstraint cH
    ({ w with
        minimumExtent := v
        minimumWidthConstraint := rW.1
        minimumHeightConstraint := rH.1 },
      rH.2,
      [.replace w.minimumWidthConstraint cW, .replace w.minimumHeightConstraint cH])
  else (w, win, [])

/-- The setter `Widget::setPreferedExtent(vec)`: like `setMinimumExtent` but the
replacement constraints are registered at `rhea::strength::weak()`. -/
def setPreferedExtent (w : Widget) (win : Window) (v : vec) :
    Widget × Window × List SolverOp :=
  if v ≠ w.preferedExtent then
    let cW : Constraint := ⟨.width, .ge, v.width, .weak⟩
    let rW := win.replaceConstraint w.preferedWidthConstraint cW
    let cH : Constraint := ⟨.height, .ge, v.height, .weak⟩
    let rH := rW.2.replaceConstraint w.preferedHeightConstraint cH
    ({ w with
        preferedExtent := v
        preferedWidthConstraint := rW.1
        preferedHeightConstraint := rH.1 },
      rH.2,
      [.replace w.preferedWidthConstraint cW, .replace w.preferedHeightConstraint cH])
  else (w, win, [])

/-- The setter `Widget::setFixedExtent(vec)`: the two `ttauri_assert` preconditions
are modelled as the `none` result (fatal, not recoverable).  On a changed
value the source first removes the old fixed constraints (for each axis
whose old fixed dimension is non-zero), then stores the new extent, then
adds the new equality constraints (for each axis whose new fixed dimension
is non-zero) — in that order. -/
def setFixedExtent (w : Widget) (win : Window) (v : vec) :
    Option (Widget × Window × List SolverOp) :=
  if (v.width = 0 ∨ v.width ≥ w.minimumExtent.width) ∧
      (v.height = 0 ∨ v.height ≥ w.minimumExtent.height) then
    some (
      if v ≠ w.fixedExtent then
        let ops1 : List SolverOp :=
          if w.fixedExtent.width ≠ 0 then [.remove w.fixedWidthConstraint] else []
        let win1 :=
          if w.fixedExtent.width ≠ 0 then win.removeConstraint w.fixedWidthConstraint
          else win
        let ops2 : List SolverOp :=
          if w.fixedExtent.height ≠ 0 then [.remove w.fixedHeightConstraint] else []
        let win2 :=
          if w.fixedExtent.height ≠ 0 then win1.removeConstraint w.fixedHeightConstraint
          else win1
        let cW : Constraint := ⟨.width, .eq, v.width, .required⟩
        let hW := if v.width ≠ 0 then (win2.addConstraint cW).1 else w.fixedWidthConstraint
        let win3 := if v.width ≠ 0 then (win2.addConstraint cW).2 else win2
        let ops3 : List SolverOp := if v.width ≠ 0 then [.add cW] else []
        let cH : Constraint := ⟨.height, .eq, v.height, .required⟩
        let hH := if v.height ≠ 0 then (win3.addConstraint cH).1 else w.fixedHeightConstraint
        let win4 := if v.height ≠ 0 then (win3.addConstraint cH).2 else win3
        let ops4 : List SolverOp := if v.height ≠ 0 then [.add cH] else []
        ({ w with
            fixedExtent := v
            fixedWidthConstraint := hW
            fixedHeightConstraint := hH },
          win4, ops1 ++ ops2 ++ ops3 ++ ops4)
      else (w, win, []))
  else none

/-- The setter `Widget::setFixedWidth(width)` = `setFixedExtent(vec{width, 0})`. -/
def setFixedWidth (w : Widget) (win : Window) (x : ℚ) :
    Option (Widget × Window × List SolverOp) :=
  setFixedExtent w win ⟨x, 0⟩

/-- The setter `Widget::setFixedHeight(height)` = `setFixedExtent(vec{0, height})`. -/
def setFixedHeight (w : Widget) (win : Window) (y : ℚ) :
    Option (Widget × Window × List SolverOp) :=
  setFixedExtent w win ⟨0, y⟩

/-- The change detector `Widget::widthOrHeightValueHasChanged()`: compares the solver's
current width/height values against the cached previous ones and updates
the cache. -/
def widthOrHeightValueHasChanged (w : Widget) : Bool × Widget :=
  let widthValue := w.widthValue
  let heightValue := w.heightValue
  let changed :=
    decide (widthValue ≠ w.widthChangePreviousValue) ||
    decide (heightValue ≠ w.heightChangePreviousValue)
  (changed,
    { w with
        widthChangePreviousValue := widthValue
        heightChangePreviousValue := heightValue })

/-- The need computation `Widget::needs(displayTimePoint)`: consumes `forceLayout` and
`forceRedraw` by exchange-to-false, folds in solved-value change
detection, and packs `(layout << 1) | redraw`. -/
def needs (w : Widget) : ℕ × Widget :=
  let layout := w.forceLayout
  let w1 := { w with forceLayout := false }
  let r := widthOrHeightValueHasChanged w1
  let layout := layout || r.1
  let redraw := layout || r.2.forceRedraw
  let w3 := { r.2 with forceRedraw := false }
  (((cond layout 1 0) <<< 1) ||| (cond redraw 1 0), w3)

/-- The geometry read `Widget::makeWindowRectangle()`: the four solver values rounded into
an `aarect`. -/
def makeWindowRectangle (w : Widget) : aarect :=
  roundR ⟨w.leftValue, w.bottomValue, w.widthValue, w.heightValue⟩

/-- The layout step `Widget::layout(displayTimePoint)`: stores the rounded window
rectangle, derives offsets and the translation transforms (`z()` is the
elevation), and sets `forceRedraw`.  `parentOffsetFromWindow` is
`parent->offsetFromWindow()` when the widget has a parent. -/
def layoutW (w : Widget) (parentOffsetFromWindow : Option vec) : Widget :=
  let r := makeWindowRectangle w
  { w with
      extent := r.extent
      offsetFromWindow := r.offset
      offsetFromParent :=
        match parentOffsetFromWindow with
        | some po => r.offset - po
        | none => r.offset
      windowRectangle := r
      fromWindowTransform := ⟨-r.x, -r.y, -w.elevation⟩
      toWindowTransform := ⟨r.x, r.y, w.elevation⟩
      forceRedraw := true }

/-- The widget ownership tree: a widget and its children. -/
inductive WTree where
  | node : Widget → List WTree → WTree

/-- The widget at the root of a subtree. -/
def WTree.widget : WTree → Widget
  | .node w _ => w

/-- The children of the root of a subtree. -/
def WTree.children : WTree → List WTree
  | .node _ cs => cs

mutual

/-- All widgets of a subtree, root first. -/
def widgetsOf : WTree → List Widget
  | .node w cs => w :: widgetsOfList cs

/-- All widgets of a forest. -/
def widgetsOfList : List WTree → List Widget
  | [] => []
  | t :: ts => widgetsOf t ++ widgetsOfList ts

end

/-- The window rectangles of all widgets of a forest, in traversal order. -/
def rectsOfList (ts : List WTree) : List aarect :=
  (widgetsOfList ts).map Widget.windowRectangle

mutual

/-- The body of the `Widget::layoutChildren` loop for one child subtree:
`child->needs()`, conditional `child->layout()`, then
`child->layoutChildren(force)` on the child's own children.  `po` is the
parent's `offsetFromWindow()` used by `child->layout()`. -/
def processChild (po : vec) (force : Bool) : WTree → ℕ × WTree
  | .node c cs =>
      let p := needs c
      let c2 := if force || decide (p.1 ≥ 2) then layoutW p.2 (some po) else p.2
      let q := processChildren c2.offsetFromWindow force cs
      (p.1 ||| q.1, .node c2 q.2)

/-- The loop of `Widget::layoutChildren` over a list of children, accumulating
the bitwise-OR of observed needs. -/
def processChildren (po : vec) (force : Bool) : List WTree → ℕ × List WTree
  | [] => (0, [])
  | t :: ts =>
      let a := processChild po force t
      let b := processChildren po force ts
      (a.1 ||| b.1, a.2 :: b.2)

end

/-- The pass `Widget::layoutChildren(displayTimePoint, force)` on a subtree: lay
out the children (recursively), leaving this widget itself untouched. -/
def layoutChildren (t : WTree) (force : Bool) : ℕ × WTree :=
  match t with
  | .node w cs =>
      let q := processChildren w.offsetFromWindow force cs
      (q.1, .node w q.2)

/-- Modelled from the spec: the per-frame driver that applies the Layout
Pass to the root widget is not under src; per the spec's control flow the
pass consults the root's own need, lays the root out when forced or at
layout level, and then runs `layoutChildren` (which is from source). -/
def layoutPass (t : WTree) (force : Bool) : ℕ × WTree :=
  match t with
  | .node w cs =>
      let p := needs w
      let w1 := if force || decide (p.1 ≥ 2) then layoutW p.2 none else p.2
      let q := processChildren w1.offsetFromWindow force cs
      (p.1 ||| q.1, .node w1 q.2)

/-- A hit-test result: either no widget, or a widget (by id) together with
its elevation.  Modelled from the spec: the `HitBox` type lives in a
header not under src; per the spec it is a `(widget_reference, elevation)`
pair or "no hit", ordered by elevation with "no hit" least. -/
inductive HitBox where
  | empty
  | hit (id : ℕ) (elevation : ℚ)
deriving DecidableEq

/-- Strict ordering of hit-test results by elevation, empty least. -/
def HitBox.lt : HitBox → HitBox → Bool
  | _, .empty => false
  | .empty, .hit _ _ => true
  | .hit _ e1, .hit _ e2 => decide (e1 < e2)

/-- The ordering `std::max(a, b)`: `b` when `a < b`, otherwise `a` (so the earlier
argument wins ties). -/
def HitBox.max (a b : HitBox) : HitBox := if HitBox.lt a b then b else a

mutual

/-- The hit test `Widget::hitBoxTest(position)`: this widget's own result when its
rectangle contains the position, folded with `std::max` over every
child's result at `position - child->offsetFromParent()`. -/
def hitBoxTest : WTree → vec → HitBox
  | .node w cs, pos =>
      hitBoxChildren cs pos
        (if w.rectangle.contains pos then HitBox.hit w.id w.elevation else HitBox.empty)

/-- The fold of the `hitBoxTest` loop over the children. -/
def hitBoxChildren : List WTree → vec → HitBox → HitBox
  | [], _, r => r
  | c :: cs, pos, r =>
      hitBoxChildren cs pos (HitBox.max r (hitBoxTest c (pos - c.widget.offsetFromParent)))

end

mutual

/-- All `(id, elevation)` pairs of widgets whose rectangle contains the
query point, with the point translated into each child's local offset:
the "containing widgets" the hit-test claim quantifies over. -/
def hits : WTree → vec → List (ℕ × ℚ)
  | .node w cs, pos =>
      (if w.rectangle.contains pos then [(w.id, w.elevation)] else []) ++ hitsList cs pos

/-- The collection `hits` over a forest of children. -/
def hitsList : List WTree → vec → List (ℕ × ℚ)
  | [], _ => []
  | c :: cs, pos => hits c (pos - c.widget.offsetFromParent) ++ hitsList cs pos

end

/-- The inherited draw context carried top-down by `Widget::draw`. -/
structure DrawContext where
  clippingRectangle : aarect
  transform : vec3
  color : ℕ
  fillColor : ℕ
deriving DecidableEq

/-- The theme collaborator: pure nesting-level-indexed color lookups. -/
structure Theme where
  borderColor : ℤ → ℕ
  fillColor : ℤ → ℕ
  accentColor : ℕ

/-- The per-child context set up by the `Widget::draw` loop: clip and
transform from the child, default colors at the child's nesting level,
then the enabled/focus/hover overrides — with the disabled branch
overriding both colors to one nesting level darker. -/
def childDrawContext (theme : Theme) (ctx : DrawContext) (child : Widget) : DrawContext :=
  let n := child.nestingLevel
  let c1 := { ctx with
      clippingRectangle := child.clippingRectangle
      transform := child.toWindowTransform
      color := theme.borderColor n
      fillColor := theme.fillColor n }
  if child.enabled then
    let c2 :=
      if child.focus then { c1 with color := theme.accentColor }
      else if child.hover then { c1 with color := theme.borderColor (n + 1) }
      else c1
    if child.hover then { c2 with fillColor := theme.fillColor (n + 1) } else c2
  else
    { c1 with
        color := theme.borderColor (n - 1)
        fillColor := theme.fillColor (n - 1) }

/-- The combined need signal of a widget as a pure function of its state:
the value `Widget::needs` returns, without the flag consumption. -/
def pureNeed (w : Widget) : ℕ :=
  let layout := w.forceLayout ||
    decide (w.widthValue ≠ w.widthChangePreviousValue) ||
    decide (w.heightValue ≠ w.heightChangePreviousValue)
  let redraw := layout || w.forceRedraw
  ((cond layout 1 0) <<< 1) ||| (cond redraw 1 0)

/-- The state `Widget::needs` leaves behind: both sticky flags consumed
and the change-detection cache refreshed. -/
def consume (w : Widget) : Widget :=
  { w with
      forceLayout := false
      forceRedraw := false
      widthChangePreviousValue := w.widthValue
      heightChangePreviousValue := w.heightValue }

/-- Bitwise-OR of the needs of a list of widgets. -/
def orNeeds (l : List Widget) : ℕ := l.foldr (fun w n => pureNeed w ||| n) 0

mutual

/-- The Layout Pass recursion as the spec words it: a child is laid out
iff the pass is forced or the child's own combined need signal is at
layout level; regardless, the pass always recurses into the
grandchildren. -/
def specChild (po : vec) (force : Bool) : WTree → WTree
  | .node c cs =>
      let laidOut := force || decide (pureNeed c ≥ 2)
      let c2 := if laidOut then layoutW (consume c) (some po) else consume c
      .node c2 (specChildren c2.offsetFromWindow force cs)

/-- The transform `specChild` over a forest of children. -/
def specChildren (po : vec) (force : Bool) : List WTree → List WTree
  | [] => []
  | t :: ts => specChild po force t :: specChildren po force ts

end

mutual

/-- Bitwise-OR of the needs of all widgets of a subtree. -/
def subtreeNeeds : WTree → ℕ
  | .node w cs => pureNeed w ||| subtreeNeedsList cs

/-- Bitwise-OR of the needs of all widgets of a forest. -/
def subtreeNeedsList : List WTree → ℕ
  | [] => 0
  | t :: ts => subtreeNeeds t ||| subtreeNeedsList ts

end

mutual

/-- The drawing directives emitted for a subtree by `Widget::draw`: for
each child, the context computed for it (passed by value), followed by
the child's own recursion. -/
def drawDirectives (theme : Theme) (ctx : DrawContext) : WTree → List (Widget × DrawContext)
  | .node _ cs => drawChildren theme ctx cs

/-- The `Widget::draw` loop over a list of children. -/
def drawChildren (theme : Theme) (ctx : DrawContext) : List WTree → List (Widget × DrawContext)
  | [] => []
  | c :: cs =>
      let cctx := childDrawContext theme ctx c.widget
      (c.widget, cctx) :: (drawDirectives theme cctx c ++ drawChildren theme ctx cs)

end

/-- A widget whose needs have been consumed this frame and whose
change-detection cache agrees with the current solver values. -/
def calm (w : Widget) : Bool :=
  !w.forceLayout &&
  decide (w.widthChangePreviousValue = w.widthValue) &&
  decide (w.heightChangePreviousValue = w.heightValue)

/-- Both sticky Needs flags are clear. -/
def flagsOff (w : Widget) : Bool := !w.forceLayout && !w.forceRedraw

/-- A hit-test result is sound for a list of containing widgets when it
is empty exactly on the empty list, and otherwise names a containing
widget of maximal elevation. -/
def HitSound (h : HitBox) (l : List (ℕ × ℚ)) : Prop :=
  (h = HitBox.empty ↔ l = []) ∧
  (∀ i e, h = HitBox.hit i e → ((i, e) ∈ l ∧ ∀ p ∈ l, p.2 ≤ e))

/-- The bookkeeping invariant tying a widget's fixed-constraint handles to
the solver store: every equality constraint on `width` (resp. `height`) in
the store is the widget's registered fixed-width (resp. fixed-height)
handle, present only while the corresponding fixed dimension is
non-zero. -/
def fixedConstraintsWF (w : Widget) (win : Window) : Bool :=
  win.constraints.all (fun p => decide (
    ((p.2.var = Var.width ∧ p.2.rel = Rel.eq) →
      (p.1 = w.fixedWidthConstraint ∧ w.fixedExtent.width ≠ 0)) ∧
    ((p.2.var = Var.height ∧ p.2.rel = Rel.eq) →
      (p.1 = w.fixedHeightConstraint ∧ w.fixedExtent.height ≠ 0))))

/-- Is the operation a `removeConstraint`? -/
def isRemoveOp : SolverOp → Bool
  | .remove _ => true
  | _ => false

/-- Is the operation an `addConstraint`? -/
def isAddOp : SolverOp → Bool
  | .add _ => true
  | _ => false

/-- Is the operation an atomic `replaceConstraint`? -/
def isReplaceOp : SolverOp → Bool
  | .replace _ _ => true
  | _ => false

/-- A trace consisting of removals followed by additions (so every
removal precedes every addition, and nothing else occurs). -/
def removesThenAdds (ops : List SolverOp) : Bool :=
  decide (ops = ops.filter isRemoveOp ++ ops.filter isAddOp)

/-! ### Concrete instances used by counterexamples and witnesses -/

/-- A freshly constructed widget with default extent `(5, 5)`. -/
def c1w0 : Widget := (mkWidget window0 none ⟨5, 5⟩).1

/-- Its window after construction. -/
def c1win0 : Window := (mkWidget window0 none ⟨5, 5⟩).2

/-- The widget after one `needs()` call: in steady state, the
change-detection cache agrees with the solver values. -/
def c1w1 : Widget := (needs c1w0).2

/-- Lowering the minimum extent from `(5, 5)` to `(3, 3)`: the stored
extent changes and both minimum constraints are replaced. -/
def c1res : Widget × Window × List SolverOp := setMinimumExtent c1w1 c1win0 ⟨3, 3⟩

/-- A widget holding fixed constraints `(5, 7)` behind handles 4 and 5. -/
def c2w : Widget :=
  { minimumExtent := ⟨1, 1⟩
    fixedExtent := ⟨5, 7⟩
    fixedWidthConstraint := 4
    fixedHeightConstraint := 5 }

/-- Its window: both fixed constraints registered. -/
def c2win : Window :=
  ⟨6, [(4, ⟨.width, .eq, 5, .required⟩), (5, ⟨.height, .eq, 7, .required⟩)]⟩

/-- The result of `setFixedExtent((6, 8))` on that widget. -/
def c2res : Widget × Window × List SolverOp :=
  (setFixedExtent c2w c2win ⟨6, 8⟩).getD (c2w, c2win, [])

/-- Widget A of the hit-test tie-break scenario: elevation 1. -/
def c5A : Widget := { id := 1, elevation := 1, extent := ⟨4, 4⟩, offsetFromParent := ⟨0, 0⟩ }

/-- Widget B of the hit-test tie-break scenario: elevation 2,
overlapping A. -/
def c5B : Widget := { id := 2, elevation := 2, extent := ⟨4, 4⟩, offsetFromParent := ⟨1, 0⟩ }

/-- A parent (not containing the query point) with the two overlapping
siblings A and B. -/
def c5tree : WTree :=
  .node { id := 0, elevation := 0, extent := ⟨0, 0⟩, offsetFromParent := ⟨0, -1⟩ }
    [.node c5A [], .node c5B []]

/-- The query point P contained in both A and B. -/
def c5P : vec := ⟨2, 2⟩

/-- A widget used to instantiate witnesses of the needs-signal claims. -/
def w6 : Widget := { forceLayout := true }

/-- A hovered but disabled child, for the draw-override witness. -/
def c7child : Widget := { id := 1, nestingLevel := 3, enabled := false, hover := true }

/-- A tree whose only child is hovered and disabled. -/
def c7tree : WTree := .node { id := 0 } [.node c7child []]

/-- A concrete theme distinguishing all the color slots involved. -/
def c7theme : Theme :=
  { borderColor := fun n => (100 + n).toNat
    fillColor := fun n => (200 + n).toNat
    accentColor := 7 }

/-- An inherited draw context for the draw-override witness. -/
def c7ctx : DrawContext := ⟨⟨0, 0, 9, 9⟩, ⟨0, 0, 0⟩, 0, 0⟩

/-- A widget with minimum extent `(2, 2)`, for the precondition witness. -/
def c8w : Widget := { minimumExtent := ⟨2, 2⟩ }

/-- A widget with only a fixed height `(0, 7)` registered, for the
single-axis setter witness. -/
def c10w : Widget :=
  { minimumExtent := ⟨1, 1⟩
    fixedExtent := ⟨0, 7⟩
    fixedHeightConstraint := 3 }

/-- Its window: the fixed-height constraint behind handle 3. -/
def c10win : Window := ⟨4, [(3, ⟨.height, .eq, 7, .required⟩)]⟩

/-! ### Helper lemmas -/

theorem vec.sub_def (a b : vec) : a - b = ⟨a.x - b.x, a.y - b.y⟩ := rfl

theorem needs_spec (w : Widget) : needs w = (pureNeed w, consume w) := by
  unfold needs widthOrHeightValueHasChanged pureNeed consume
  cases w
  simp [Bool.or_assoc]

theorem orNeeds_append (l1 l2 : List Widget) :
    orNeeds (l1 ++ l2) = orNeeds l1 ||| orNeeds l2 := by
  induction l1 with
  | nil => simp [orNeeds]
  | cons w l ih => simp [orNeeds, List.foldr_cons] at ih ⊢; rw [ih, Nat.lor_assoc]

mutual

theorem subtreeNeeds_orNeeds (t : WTree) : subtreeNeeds t = orNeeds (widgetsOf t) := by
  cases t with
  | node w cs =>
      rw [subtreeNeeds, widgetsOf, subtreeNeedsList_orNeeds cs]
      simp [orNeeds]

theorem subtreeNeedsList_orNeeds (ts : List WTree) :
    subtreeNeedsList ts = orNeeds (widgetsOfList ts) := by
  cases ts with
  | nil => rfl
  | cons t ts =>
      rw [subtreeNeedsList, widgetsOfList, orNeeds_append,
        subtreeNeeds_orNeeds t, subtreeNeedsList_orNeeds ts]

end

mutual

theorem processChild_eq (po : vec) (force : Bool) (t : WTree) :
    processChild po force t = (subtreeNeeds t, specChild po force t) := by
  cases t with
  | node c cs =>
      rw [processChild, specChild, subtreeNeeds, needs_spec,
        processChildren_eq _ force cs]

theorem processChildren_eq (po : vec) (force : Bool) (ts : List WTree) :
    processChildren po force ts = (subtreeNeedsList ts, specChildren po force ts) := by
  cases ts with
  | nil => rfl
  | cons t ts =>
      rw [processChildren, specChildren, subtreeNeedsList,
        processChild_eq po force t, processChildren_eq po force ts]

end

/-! ### Claim theorems -/

/-- C3: for every widget and every call `layoutChildren(t, force)`, the
returned value is the bitwise-OR of the needs of every widget of the
whole subtree (so dirty leaves below clean ancestors are observed), and
the resulting tree is exactly the spec-worded recursion `specChildren`,
in which a child is laid out iff `force` is true or its own combined need
signal is at layout level (≥ 2), and which always recurses into the
grandchildren. -/
theorem layoutChildren_recursion_policy_C3 (w : Widget) (force : Bool) (cs : List WTree) :
    (layoutChildren (.node w cs) force).1 = orNeeds (widgetsOfList cs) ∧
    (layoutChildren (.node w cs) force).2 =
      .node w (specChildren w.offsetFromWindow force cs) := by
  rw [layoutChildren, processChildren_eq, subtreeNeedsList_orNeeds]
  exact ⟨rfl, rfl⟩

/-- C6: `Widget::needs` always sets the redraw bit when the layout bit is
set: the combined signal is 0, 1 or 3, never 2. -/
theorem needs_layout_implies_redraw_C6 (w : Widget) :
    ((needs w).1 = 0 ∨ (needs w).1 = 1 ∨ (needs w).1 = 3) ∧
    ((needs w).1.testBit 1 = true → (needs w).1.testBit 0 = true) := by
  rw [needs_spec]
  simp only [pureNeed]
  cases w.forceLayout ||
      decide (w.widthValue ≠ w.widthChangePreviousValue) ||
      decide (w.heightValue ≠ w.heightChangePreviousValue) <;>
    cases w.forceRedraw <;> simp

/-- Witness for C6 at a widget with `forceLayout` set. -/
theorem needs_layout_implies_redraw_C6_witness :
    (((needs w6).1 = 0 ∨ (needs w6).1 = 1 ∨ (needs w6).1 = 3) ∧
      ((needs w6).1.testBit 1 = true → (needs w6).1.testBit 0 = true)) :=
  needs_layout_implies_redraw_C6 w6

/-- C8: `Widget::setFixedExtent` succeeds (no assertion fires) exactly
when each non-zero fixed dimension is at least the corresponding minimum
dimension; otherwise the `ttauri_assert` precondition failure is fatal
(`none`). -/
theorem setFixedExtent_precondition_C8 (w : Widget) (win : Window) (v : vec) :
    (setFixedExtent w win v).isSome = true ↔
      ((v.width = 0 ∨ v.width ≥ w.minimumExtent.width) ∧
        (v.height = 0 ∨ v.height ≥ w.minimumExtent.height)) := by
  unfold setFixedExtent
  split <;> simp_all

/-- Witness for C8: fixed width 3 against minimum 2 passes the
precondition. -/
theorem setFixedExtent_precondition_C8_witness :
    (setFixedExtent c8w window0 ⟨3, 0⟩).isSome = true ↔
      (((3 : ℚ) = 0 ∨ (3 : ℚ) ≥ c8w.minimumExtent.width) ∧
        ((0 : ℚ) = 0 ∨ (0 : ℚ) ≥ c8w.minimumExtent.height)) :=
  setFixedExtent_precondition_C8 c8w window0 ⟨3, 0⟩

/-- C1 counterexample: lowering the minimum extent of a steady-state
widget from `(5, 5)` to `(3, 3)` changes the stored extent and replaces
both registered minimum constraints, yet the widget's `forceLayout`
(needs_layout) flag is not set; the solver's width value is unchanged by
the mutation (the strong preferred constraint still binds at 5), so the
next `needs()` call reports 0, below layout level — refuting the claim
that any constraint-changing Extent Model mutation sets `needs_layout`. -/
theorem setMinimumExtent_no_needs_layout_cx_C1 :
    c1res.1.minimumExtent ≠ c1w1.minimumExtent ∧
    c1res.2.2 ≠ [] ∧
    c1res.1.forceLayout = false ∧
    solverValue c1res.2.1 Var.width = c1w1.widthValue ∧
    (needs c1res.1).1 = 0 := by decide

/-- C1 amended: the extent setters replace solver constraints but leave
both sticky Needs flags untouched; `needs()` reports layout level exactly
when `forceLayout` was set by other means or the solver's resolved
width/height differs from the cached previous value. -/
theorem extent_mutation_needs_amended_C1 (w : Widget) (win : Window) (v : vec)
    (r : Widget × Window × List SolverOp) (hr : setFixedExtent w win v = some r) :
    ((setMinimumExtent w win v).1.forceLayout = w.forceLayout ∧
      (setMinimumExtent w win v).1.forceRedraw = w.forceRedraw) ∧
    ((setPreferedExtent w win v).1.forceLayout = w.forceLayout ∧
      (setPreferedExtent w win v).1.forceRedraw = w.forceRedraw) ∧
    (r.1.forceLayout = w.forceLayout ∧ r.1.forceRedraw = w.forceRedraw) ∧
    ((needs w).1 ≥ 2 ↔
      (w.forceLayout = true ∨ w.widthValue ≠ w.widthChangePreviousValue ∨
        w.heightValue ≠ w.heightChangePreviousValue)) := by
  refine ⟨?_, ?_, ?_, ?_⟩
  · unfold setMinimumExtent
    split <;> exact ⟨rfl, rfl⟩
  · unfold setPreferedExtent
    split <;> exact ⟨rfl, rfl⟩
  · unfold setFixedExtent at hr
    split at hr
    · split at hr <;> (injection hr with hr; subst hr; exact ⟨rfl, rfl⟩)
    · exact absurd hr (by simp)
  · rw [needs_spec]
    simp only [pureNeed]
    cases hfl : w.forceLayout <;>
      cases hw : decide (w.widthValue ≠ w.widthChangePreviousValue) <;>
        cases hh : decide (w.heightValue ≠ w.heightChangePreviousValue) <;>
          cases hfr : w.forceRedraw <;> simp_all

/-- Witness for the amended C1 at concrete inputs where `setFixedExtent`
succeeds. -/
theorem extent_mutation_needs_amended_C1_witness :
    ((setMinimumExtent c8w window0 ⟨4, 4⟩).1.forceLayout = c8w.forceLayout ∧
      (setMinimumExtent c8w window0 ⟨4, 4⟩).1.forceRedraw = c8w.forceRedraw) ∧
    ((setPreferedExtent c8w window0 ⟨4, 4⟩).1.forceLayout = c8w.forceLayout ∧
      (setPreferedExtent c8w window0 ⟨4, 4⟩).1.forceRedraw = c8w.forceRedraw) ∧
    (((setFixedExtent c8w window0 ⟨4, 4⟩).getD (c8w, window0, [])).1.forceLayout
        = c8w.forceLayout ∧
      ((setFixedExtent c8w window0 ⟨4, 4⟩).getD (c8w, window0, [])).1.forceRedraw
        = c8w.forceRedraw) ∧
    ((needs c8w).1 ≥ 2 ↔
      (c8w.forceLayout = true ∨ c8w.widthValue ≠ c8w.widthChangePreviousValue ∨
        c8w.heightValue ≠ c8w.heightChangePreviousValue)) :=
  extent_mutation_needs_amended_C1 c8w window0 ⟨4, 4⟩
    ((setFixedExtent c8w window0 ⟨4, 4⟩).getD (c8w, window0, [])) (by decide)

/-- C2 counterexample: on a widget with fixed extent `(5, 7)` registered
behind handles 4 and 5, `setFixedExtent((6, 8))` issues its removals
*before* its additions: after the first operation of the trace the solver
no longer holds any fixed-width constraint, although one exists both
before and after the whole call — refuting the claim that the old handle
is removed only after the new one is added. -/
theorem setFixedExtent_remove_before_add_cx_C2 :
    setFixedExtent c2w c2win ⟨6, 8⟩ = some c2res ∧
    c2res.2.2 = [.remove 4, .remove 5,
      .add ⟨.width, .eq, 6, .required⟩, .add ⟨.height, .eq, 8, .required⟩] ∧
    hasFixedWidthC c2win = true ∧
    hasFixedWidthC (applyOps c2win (c2res.2.2.take 1)) = false ∧
    hasFixedWidthC c2res.2.1 = true := by decide

/-- C2 amended: `setMinimumExtent` and `setPreferedExtent` replace each
affected constraint through the solver's atomic `replaceConstraint`
(their traces contain only replace operations), while `setFixedExtent`
removes the old fixed constraints first and adds the new ones afterwards
(its trace is removals followed by additions), so during `setFixedExtent`
the solver is transiently without a fixed constraint for a dimension that
is fixed both before and after the call. -/
theorem constraint_replacement_order_amended_C2 (w : Widget) (win : Window) (v : vec)
    (r : Widget × Window × List SolverOp) (hr : setFixedExtent w win v = some r) :
    (setMinimumExtent w win v).2.2.all isReplaceOp = true ∧
    (setPreferedExtent w win v).2.2.all isReplaceOp = true ∧
    removesThenAdds r.2.2 = true := by
  refine ⟨?_, ?_, ?_⟩
  · unfold setMinimumExtent
    split <;> simp [isReplaceOp]
  · unfold setPreferedExtent
    split <;> simp [isReplaceOp]
  · unfold setFixedExtent at hr
    split at hr
    · split at hr <;> (injection hr with hr; subst hr) <;>
        (try split_ifs) <;> simp [removesThenAdds, isRemoveOp, isAddOp]
    · exact absurd hr (by simp)

/-- Witness for the amended C2 at the concrete `(5, 7) → (6, 8)`
scenario. -/
theorem constraint_replacement_order_amended_C2_witness :
    (setMinimumExtent c2w c2win ⟨6, 8⟩).2.2.all isReplaceOp = true ∧
    (setPreferedExtent c2w c2win ⟨6, 8⟩).2.2.all isReplaceOp = true ∧
    removesThenAdds c2res.2.2 = true :=
  constraint_replacement_order_amended_C2 c2w c2win ⟨6, 8⟩ c2res (by decide)

theorem hitSound_max {a b : HitBox} {la lb : List (ℕ × ℚ)}
    (ha : HitSound a la) (hb : HitSound b lb) :
    HitSound (HitBox.max a b) (la ++ lb) := by
  cases a with
  | empty =>
      have hla : la = [] := ha.1.mp rfl
      subst hla
      cases b with
      | empty => simpa [HitBox.max, HitBox.lt] using hb
      | hit i2 e2 => simpa [HitBox.max, HitBox.lt] using hb
  | hit i1 e1 =>
      obtain ⟨hmem1, hbd1⟩ := ha.2 i1 e1 rfl
      cases b with
      | empty =>
          have hlb : lb = [] := hb.1.mp rfl
          subst hlb
          simpa [HitBox.max, HitBox.lt] using ha
      | hit i2 e2 =>
          obtain ⟨hmem2, hbd2⟩ := hb.2 i2 e2 rfl
          by_cases hlt : e1 < e2
          · have hm : HitBox.max (.hit i1 e1) (.hit i2 e2) = .hit i2 e2 := by
              simp [HitBox.max, HitBox.lt, hlt]
            rw [hm]
            refine ⟨⟨fun h => HitBox.noConfusion h,
              fun h => absurd (h ▸ List.mem_append_right la hmem2)
                (List.not_mem_nil _)⟩, ?_⟩
            intro i e he
            injection he with h1 h2
            subst h1
            subst h2
            refine ⟨List.mem_append_right la hmem2, ?_⟩
            intro p hp
            rcases List.mem_append.1 hp with h | h
            · exact le_trans (hbd1 p h) (le_of_lt hlt)
            · exact hbd2 p h
          · have hm : HitBox.max (.hit i1 e1) (.hit i2 e2) = .hit i1 e1 := by
              simp [HitBox.max, HitBox.lt, hlt]
            rw [hm]
            refine ⟨⟨fun h => HitBox.noConfusion h,
              fun h => absurd (h ▸ List.mem_append_left lb hmem1)
                (List.not_mem_nil _)⟩, ?_⟩
            intro i e he
            injection he with h1 h2
            subst h1
            subst h2
            refine ⟨List.mem_append_left lb hmem1, ?_⟩
            intro p hp
            rcases List.mem_append.1 hp with h | h
            · exact hbd1 p h
            · exact le_trans (hbd2 p h) (le_of_not_lt hlt)

theorem hitSound_self (w : Widget) (pos : vec) :
    HitSound (if w.rectangle.contains pos then HitBox.hit w.id w.elevation else HitBox.empty)
      (if w.rectangle.contains pos then [(w.id, w.elevation)] else []) := by
  by_cases hc : w.rectangle.contains pos
  · rw [if_pos hc, if_pos hc]
    refine ⟨⟨fun h => HitBox.noConfusion h, fun h => by simp at h⟩, ?_⟩
    intro i e he
    injection he with h1 h2
    subst h1
    subst h2
    refine ⟨List.mem_singleton_self _, ?_⟩
    intro p hp
    rw [List.mem_singleton] at hp
    subst hp
    exact le_rfl
  · rw [if_neg hc, if_neg hc]
    exact ⟨⟨fun _ => rfl, fun _ => rfl⟩, fun i e he => HitBox.noConfusion he⟩

mutual

theorem hitBoxTest_sound (t : WTree) (pos : vec) :
    HitSound (hitBoxTest t pos) (hits t pos) := by
  cases t with
  | node w cs =>
      rw [hitBoxTest, hits]
      exact hitBoxChildren_sound cs pos _ _ (hitSound_self w pos)

theorem hitBoxChildren_sound (cs : List WTree) (pos : vec) (r : HitBox)
    (l : List (ℕ × ℚ)) (hr : HitSound r l) :
    HitSound (hitBoxChildren cs pos r) (l ++ hitsList cs pos) := by
  cases cs with
  | nil =>
      rw [hitBoxChildren, hitsList]
      simpa using hr
  | cons c cs =>
      rw [hitBoxChildren, hitsList]
      have h1 := hitSound_max hr (hitBoxTest_sound c (pos - c.widget.offsetFromParent))
      have h2 := hitBoxChildren_sound cs pos _ _ h1
      simpa [List.append_assoc] using h2

end

/-- C5: `hitBoxTest` returns an empty result exactly when no widget of
the tree contains the point (translated into each child's local offset),
and otherwise returns a containing widget of maximal elevation among this
widget and all descendants. -/
theorem hitBoxTest_topmost_C5 (t : WTree) (pos : vec) :
    (hitBoxTest t pos = HitBox.empty ↔ hits t pos = []) ∧
    (∀ i e, hitBoxTest t pos = HitBox.hit i e →
      ((i, e) ∈ hits t pos ∧ ∀ p ∈ hits t pos, p.2 ≤ e)) :=
  hitBoxTest_sound t pos

/-- Witness for C5: the tie-break scenario — overlapping siblings A
(elevation 1) and B (elevation 2) both containing P, the result is B. -/
theorem hitBoxTest_topmost_C5_witness :
    hitBoxTest c5tree c5P = HitBox.hit 2 2 ∧
    ((2, (2 : ℚ)) ∈ hits c5tree c5P ∧ ∀ p ∈ hits c5tree c5P, p.2 ≤ (2 : ℚ)) :=
  ⟨by norm_num [hitBoxTest, hitBoxChildren, hits, hitsList, WTree.widget,
      c5tree, c5A, c5B, c5P, HitBox.max, HitBox.lt, Widget.rectangle,
      aarect.contains, vec.sub_def],
    (hitBoxTest_topmost_C5 c5tree c5P).2 2 2
      (by norm_num [hitBoxTest, hitBoxChildren, hits, hitsList, WTree.widget,
        c5tree, c5A, c5B, c5P, HitBox.max, HitBox.lt, Widget.rectangle,
        aarect.contains, vec.sub_def])⟩

theorem childDrawContext_disabled (theme : Theme) (ctx : DrawContext) (c : Widget)
    (hc : c.enabled = false) :
    (childDrawContext theme ctx c).color = theme.borderColor (c.nestingLevel - 1) ∧
    (childDrawContext theme ctx c).fillColor = theme.fillColor (c.nestingLevel - 1) := by
  unfold childDrawContext
  rw [hc]
  exact ⟨rfl, rfl⟩

mutual

theorem drawDirectives_disabled (theme : Theme) (ctx : DrawContext) (t : WTree) :
    (drawDirectives theme ctx t).all (fun p => p.1.enabled ||
      (decide (p.2.color = theme.borderColor (p.1.nestingLevel - 1)) &&
        decide (p.2.fillColor = theme.fillColor (p.1.nestingLevel - 1)))) = true := by
  cases t with
  | node w cs =>
      rw [drawDirectives]
      exact drawChildren_disabled theme ctx cs

theorem drawChildren_disabled (theme : Theme) (ctx : DrawContext) (cs : List WTree) :
    (drawChildren theme ctx cs).all (fun p => p.1.enabled ||
      (decide (p.2.color = theme.borderColor (p.1.nestingLevel - 1)) &&
        decide (p.2.fillColor = theme.fillColor (p.1.nestingLevel - 1)))) = true := by
  cases cs with
  | nil => rfl
  | cons c cs =>
      rw [drawChildren]
      simp only [List.all_cons, List.all_append, Bool.and_eq_true]
      refine ⟨?_, drawDirectives_disabled theme _ c, drawChildren_disabled theme ctx cs⟩
      by_cases he : c.widget.enabled
      · simp [he]
      · have hd := childDrawContext_disabled theme ctx c.widget (Bool.not_eq_true _ ▸ he)
        simp [hd.1, hd.2]

end

/-- C7: every child drawn with `enabled = false` gets both its border and
fill colors from one nesting level darker than normal, overriding any
hover/focus styling — in particular a hovered disabled child is drawn
with the disabled (darker) styling. -/
theorem draw_disabled_override_C7 (theme : Theme) (ctx : DrawContext) (t : WTree) :
    (drawDirectives theme ctx t).all (fun p => p.1.enabled ||
      (decide (p.2.color = theme.borderColor (p.1.nestingLevel - 1)) &&
        decide (p.2.fillColor = theme.fillColor (p.1.nestingLevel - 1)))) = true :=
  drawDirectives_disabled theme ctx t

/-- Witness for C7 at a tree whose only child is hovered and disabled. -/
theorem draw_disabled_override_C7_witness :
    (drawDirectives c7theme c7ctx c7tree).all (fun p => p.1.enabled ||
      (decide (p.2.color = c7theme.borderColor (p.1.nestingLevel - 1)) &&
        decide (p.2.fillColor = c7theme.fillColor (p.1.nestingLevel - 1)))) = true :=
  draw_disabled_override_C7 c7theme c7ctx c7tree

/-- C9: reading solved geometry straight after construction (before any
explicit solve) does not fail: the rectangle's size is the widget's
minimum extent (up to device-unit rounding), which equals the default
extent the widget was constructed with. -/
theorem makeWindowRectangle_default_C9 (pe : Option ℚ) (d : vec)
    (hx : 0 ≤ d.x) (hy : 0 ≤ d.y) :
    (makeWindowRectangle (mkWidget window0 pe d).1).extent =
      ⟨roundQ (mkWidget window0 pe d).1.minimumExtent.x,
        roundQ (mkWidget window0 pe d).1.minimumExtent.y⟩ ∧
    (mkWidget window0 pe d).1.minimumExtent = d := by
  have h1 : max d.x 0 = d.x := max_eq_left hx
  have h2 : max d.y 0 = d.y := max_eq_left hy
  simp [mkWidget, window0, makeWindowRectangle, solverValue, Window.addConstraint,
    roundR, aarect.extent, vec.width, vec.height, h1, h2]

/-- Witness for C9 at default extent `(5, 7)`. -/
theorem makeWindowRectangle_default_C9_witness :
    ((makeWindowRectangle (mkWidget window0 none ⟨5, 7⟩).1).extent =
      ⟨roundQ (mkWidget window0 none ⟨5, 7⟩).1.minimumExtent.x,
        roundQ (mkWidget window0 none ⟨5, 7⟩).1.minimumExtent.y⟩ ∧
      (mkWidget window0 none ⟨5, 7⟩).1.minimumExtent = ⟨5, 7⟩) :=
  makeWindowRectangle_default_C9 none ⟨5, 7⟩ (by norm_num) (by norm_num)

theorem hasVarEq_false_of (win : Window) (vr : Var)
    (h : ∀ p ∈ win.constraints, ¬(p.2.var = vr ∧ p.2.rel = Rel.eq)) :
    hasVarEq win vr = false := by
  rw [hasVarEq, List.any_eq_false]
  intro p hp
  simpa using h p hp

theorem mem_of_mem_removeConstraint {win : Window} {h : ℕ} {p : ℕ × Constraint}
    (hp : p ∈ (win.removeConstraint h).constraints) :
    p ∈ win.constraints ∧ p.1 ≠ h := by
  rw [Window.removeConstraint] at hp
  simp only [List.mem_filter] at hp
  exact ⟨hp.1, by simpa using hp.2⟩

theorem no_heightEq_after_fixed_removals (w : Widget) (win : Window)
    (hwf : ∀ p ∈ win.constraints,
      ((p.2.var = Var.width ∧ p.2.rel = Rel.eq) →
        (p.1 = w.fixedWidthConstraint ∧ w.fixedExtent.width ≠ 0)) ∧
      ((p.2.var = Var.height ∧ p.2.rel = Rel.eq) →
        (p.1 = w.fixedHeightConstraint ∧ w.fixedExtent.height ≠ 0)))
    {p : ℕ × Constraint}
    (hp : p ∈ (if w.fixedExtent.height ≠ 0
        then ((if w.fixedExtent.width ≠ 0
                then win.removeConstraint w.fixedWidthConstraint
                else win).removeConstraint w.fixedHeightConstraint)
        else (if w.fixedExtent.width ≠ 0
                then win.removeConstraint w.fixedWidthConstraint
                else win)).constraints) :
    ¬(p.2.var = Var.height ∧ p.2.rel = Rel.eq) := by
  intro hpe
  by_cases hh : w.fixedExtent.height ≠ 0
  · rw [if_pos hh] at hp
    obtain ⟨hp1, hpneq⟩ := mem_of_mem_removeConstraint hp
    have hp0 : p ∈ win.constraints := by
      by_cases hw' : w.fixedExtent.width ≠ 0
      · rw [if_pos hw'] at hp1
        exact (mem_of_mem_removeConstraint hp1).1
      · rw [if_neg hw'] at hp1
        exact hp1
    exact hpneq ((hwf p hp0).2 hpe).1
  · rw [if_neg hh] at hp
    have hp0 : p ∈ win.constraints := by
      by_cases hw' : w.fixedExtent.width ≠ 0
      · rw [if_pos hw'] at hp
        exact (mem_of_mem_removeConstraint hp).1
      · rw [if_neg hw'] at hp
        exact hp
    exact hh ((hwf p hp0).2 hpe).2

theorem no_widthEq_after_fixed_removals (w : Widget) (win : Window)
    (hwf : ∀ p ∈ win.constraints,
      ((p.2.var = Var.width ∧ p.2.rel = Rel.eq) →
        (p.1 = w.fixedWidthConstraint ∧ w.fixedExtent.width ≠ 0)) ∧
      ((p.2.var = Var.height ∧ p.2.rel = Rel.eq) →
        (p.1 = w.fixedHeightConstraint ∧ w.fixedExtent.height ≠ 0)))
    {p : ℕ × Constraint}
    (hp : p ∈ (if w.fixedExtent.height ≠ 0
        then ((if w.fixedExtent.width ≠ 0
                then win.removeConstraint w.fixedWidthConstraint
                else win).removeConstraint w.fixedHeightConstraint)
        else (if w.fixedExtent.width ≠ 0
                then win.removeConstraint w.fixedWidthConstraint
                else win)).constraints) :
    ¬(p.2.var = Var.width ∧ p.2.rel = Rel.eq) := by
  intro hpe
  have hp1 : p ∈ (if w.fixedExtent.width ≠ 0
      then win.removeConstraint w.fixedWidthConstraint else win).constraints := by
    by_cases hh : w.fixedExtent.height ≠ 0
    · rw [if_pos hh] at hp
      exact (mem_of_mem_removeConstraint hp).1
    · rw [if_neg hh] at hp
      exact hp
  by_cases hw' : w.fixedExtent.width ≠ 0
  · rw [if_pos hw'] at hp1
    obtain ⟨hp0, hne⟩ := mem_of_mem_removeConstraint hp1
    exact hne ((hwf p hp0).1 hpe).1
  · rw [if_neg hw'] at hp1
    exact hw' ((hwf p hp1).1 hpe).2

/-- C10: `setFixedWidth(w)` is `setFixedExtent((w, 0))` and
`setFixedHeight(h)` is `setFixedExtent((0, h))`; consequently, under the
handle bookkeeping invariant, `setFixedWidth` leaves no fixed-height
constraint in the solver (the height becomes unconstrained) and
`setFixedHeight` leaves no fixed-width constraint. -/
theorem setFixedWidth_drops_fixedHeight_C10 (w : Widget) (win : Window) (q : ℚ)
    (hwf : fixedConstraintsWF w win = true)
    (hqw : q = 0 ∨ q ≥ w.minimumExtent.width)
    (hqh : q = 0 ∨ q ≥ w.minimumExtent.height) :
    (setFixedWidth w win q = setFixedExtent w win ⟨q, 0⟩) ∧
    (setFixedHeight w win q = setFixedExtent w win ⟨0, q⟩) ∧
    (∃ r, setFixedWidth w win q = some r ∧ r.1.fixedExtent = ⟨q, 0⟩ ∧
      hasFixedHeightC r.2.1 = false) ∧
    (∃ r, setFixedHeight w win q = some r ∧ r.1.fixedExtent = ⟨0, q⟩ ∧
      hasFixedWidthC r.2.1 = false) := by
  rw [fixedConstraintsWF, List.all_eq_true] at hwf
  simp only [decide_eq_true_eq] at hwf
  refine ⟨rfl, rfl, ?_, ?_⟩
  · unfold setFixedWidth setFixedExtent
    split
    · refine ⟨_, rfl, ?_, ?_⟩
      · split
        · rfl
        · rename_i hne
          exact (not_ne_iff.mp hne).symm
      · split
        · rename_i hne
          rw [hasFixedHeightC]
          apply hasVarEq_false_of
          intro p hp
          simp only [vec.width, vec.height] at hp
          rw [if_neg (by norm_num : ¬(0 : ℚ) ≠ 0)] at hp
          by_cases hq0 : q ≠ 0
          · rw [if_pos hq0, Window.addConstraint] at hp
            simp only [List.mem_cons] at hp
            rcases hp with rfl | hp
            · simp
            · exact no_heightEq_after_fixed_removals w win hwf hp
          · rw [if_neg hq0] at hp
            exact no_heightEq_after_fixed_removals w win hwf hp
        · rename_i hne
          have hfe : (⟨q, 0⟩ : vec) = w.fixedExtent := not_ne_iff.mp hne
          rw [hasFixedHeightC]
          apply hasVarEq_false_of
          intro p hp hpe
          have h2 := ((hwf p hp).2 hpe).2
          rw [← hfe] at h2
          exact h2 rfl
    · rename_i hg
      exact absurd ⟨hqw, Or.inl rfl⟩ hg
  · unfold setFixedHeight setFixedExtent
    split
    · refine ⟨_, rfl, ?_, ?_⟩
      · split
        · rfl
        · rename_i hne
          exact (not_ne_iff.mp hne).symm
      · split
        · rename_i hne
          rw [hasFixedWidthC]
          apply hasVarEq_false_of
          intro p hp
          simp only [vec.width, vec.height] at hp
          by_cases hq0 : q ≠ 0
          · rw [if_pos hq0] at hp
            rw [if_neg (by norm_num : ¬(0 : ℚ) ≠ 0), Window.addConstraint] at hp
            simp only [List.mem_cons] at hp
            rcases hp with rfl | hp
            · simp
            · exact no_widthEq_after_fixed_removals w win hwf hp
          · rw [if_neg hq0] at hp
            rw [if_neg (by norm_num : ¬(0 : ℚ) ≠ 0)] at hp
            exact no_widthEq_after_fixed_removals w win hwf hp
        · rename_i hne
          have hfe : (⟨0, q⟩ : vec) = w.fixedExtent := not_ne_iff.mp hne
          rw [hasFixedWidthC]
          apply hasVarEq_false_of
          intro p hp hpe
          have h2 := ((hwf p hp).1 hpe).2
          rw [← hfe] at h2
          exact h2 rfl
    · rename_i hg
      exact absurd ⟨Or.inl rfl, hqh⟩ hg

/-- Witness for C10: a widget with a registered fixed height `(0, 7)`
loses its fixed-height constraint when `setFixedWidth(6)` is called. -/
theorem setFixedWidth_drops_fixedHeight_C10_witness :
    (setFixedWidth c10w c10win 6 = setFixedExtent c10w c10win ⟨6, 0⟩) ∧
    (setFixedHeight c10w c10win 6 = setFixedExtent c10w c10win ⟨0, 6⟩) ∧
    (∃ r, setFixedWidth c10w c10win 6 = some r ∧ r.1.fixedExtent = ⟨6, 0⟩ ∧
      hasFixedHeightC r.2.1 = false) ∧
    (∃ r, setFixedHeight c10w c10win 6 = some r ∧ r.1.fixedExtent = ⟨0, 6⟩ ∧
      hasFixedWidthC r.2.1 = false) :=
  setFixedWidth_drops_fixedHeight_C10 c10w c10win 6 (by decide)
    (by norm_num [c10w, vec.width]) (by norm_num [c10w, vec.height])

theorem calm_consume (w : Widget) : calm (consume w) = true := by
  simp [calm, consume]

theorem calm_layoutW (w : Widget) (po : Option vec) : calm (layoutW w po) = calm w := by
  simp [calm, layoutW]

theorem flagsOff_consume (w : Widget) : flagsOff (consume w) = true := by
  simp [flagsOff, consume]

theorem windowRectangle_consume (w : Widget) :
    (consume w).windowRectangle = w.windowRectangle := rfl

theorem pureNeed_calm_lt (w : Widget) (h : calm w = true) : ¬pureNeed w ≥ 2 := by
  simp only [calm, Bool.and_eq_true, Bool.not_eq_true', decide_eq_true_eq] at h
  obtain ⟨⟨h1, h2⟩, h3⟩ := h
  cases hfr : w.forceRedraw <;> simp [pureNeed, h1, h2, h3, hfr]

mutual

theorem calm_processChild (po : vec) (force : Bool) (t : WTree) :
    (widgetsOf (processChild po force t).2).all calm = true := by
  cases t with
  | node c cs =>
      rw [processChild]
      simp only [widgetsOf, List.all_cons, Bool.and_eq_true]
      refine ⟨?_, calm_processChildren _ force cs⟩
      rw [needs_spec]
      split
      · rw [calm_layoutW]
        exact calm_consume c
      · exact calm_consume c

theorem calm_processChildren (po : vec) (force : Bool) (ts : List WTree) :
    (widgetsOfList (processChildren po force ts).2).all calm = true := by
  cases ts with
  | nil => rfl
  | cons t ts =>
      rw [processChildren]
      simp only [widgetsOfList, List.all_append, Bool.and_eq_true]
      exact ⟨calm_processChild po force t, calm_processChildren po force ts⟩

end

/-- Every widget is `calm` after a full `layoutPass`. -/
theorem calm_layoutPass (t : WTree) (force : Bool) :
    (widgetsOf (layoutPass t force).2).all calm = true := by
  cases t with
  | node w cs =>
      rw [layoutPass]
      simp only [widgetsOf, List.all_cons, Bool.and_eq_true]
      refine ⟨?_, calm_processChildren _ force cs⟩
      rw [needs_spec]
      split
      · rw [calm_layoutW]
        exact calm_consume w
      · exact calm_consume w

mutual

theorem second_processChild (po : vec) (t : WTree)
    (h : (widgetsOf t).all calm = true) :
    (widgetsOf (processChild po false t).2).map Widget.windowRectangle =
      (widgetsOf t).map Widget.windowRectangle ∧
    (widgetsOf (processChild po false t).2).all flagsOff = true := by
  cases t with
  | node c cs =>
      rw [widgetsOf, List.all_cons, Bool.and_eq_true] at h
      obtain ⟨hc, hcs⟩ := h
      rw [processChild, needs_spec]
      have hor : (false || decide ((pureNeed c, consume c).1 ≥ 2)) = false := by
        simp [pureNeed_calm_lt c hc]
      rw [hor]
      simp only [Bool.false_eq_true, if_false, widgetsOf, List.map_cons, List.all_cons,
        Bool.and_eq_true]
      obtain ⟨ih1, ih2⟩ := second_processChildren (consume c).offsetFromWindow cs hcs
      exact ⟨by rw [windowRectangle_consume, ih1], flagsOff_consume c, ih2⟩

theorem second_processChildren (po : vec) (ts : List WTree)
    (h : (widgetsOfList ts).all calm = true) :
    (widgetsOfList (processChildren po false ts).2).map Widget.windowRectangle =
      (widgetsOfList ts).map Widget.windowRectangle ∧
    (widgetsOfList (processChildren po false ts).2).all flagsOff = true := by
  cases ts with
  | nil => exact ⟨rfl, rfl⟩
  | cons t ts =>
      rw [widgetsOfList, List.all_append, Bool.and_eq_true] at h
      obtain ⟨ht, hts⟩ := h
      rw [processChildren]
      simp only [widgetsOfList, List.map_append, List.all_append, Bool.and_eq_true]
      obtain ⟨a1, a2⟩ := second_processChild po t ht
      obtain ⟨b1, b2⟩ := second_processChildren po ts hts
      exact ⟨by rw [a1, b1], a2, b2⟩

end

/-- The second `layoutPass` over a calm tree only consumes `forceRedraw`:
rectangles are untouched and both flags end up clear. -/
theorem second_layoutPass (t : WTree) (h : (widgetsOf t).all calm = true) :
    (widgetsOf (layoutPass t false).2).map Widget.windowRectangle =
      (widgetsOf t).map Widget.windowRectangle ∧
    (widgetsOf (layoutPass t false).2).all flagsOff = true := by
  cases t with
  | node w cs =>
      rw [widgetsOf, List.all_cons, Bool.and_eq_true] at h
      obtain ⟨hw, hcs⟩ := h
      rw [layoutPass, needs_spec]
      have hor : (false || decide ((pureNeed w, consume w).1 ≥ 2)) = false := by
        simp [pureNeed_calm_lt w hw]
      rw [hor]
      simp only [Bool.false_eq_true, if_false, widgetsOf, List.map_cons, List.all_cons,
        Bool.and_eq_true]
      obtain ⟨ih1, ih2⟩ := second_processChildren (consume w).offsetFromWindow cs hcs
      exact ⟨by rw [windowRectangle_consume, ih1], flagsOff_consume w, ih2⟩

/-- C4: running the Layout Pass twice with `force = false` and no
intervening state change yields identical window rectangles for every
widget across the two runs and leaves both Needs flags (`forceLayout` and
`forceRedraw`) clear on every widget afterwards — stated both for the
full pass including the root (`layoutPass`) and for the source
`layoutChildren` over all widgets it processes. -/
theorem layoutPass_idempotent_C4 (t : WTree) :
    ((widgetsOf (layoutPass (layoutPass t false).2 false).2).map Widget.windowRectangle =
        (widgetsOf (layoutPass t false).2).map Widget.windowRectangle ∧
      (widgetsOf (layoutPass (layoutPass t false).2 false).2).all flagsOff = true) ∧
    ((widgetsOfList (layoutChildren (layoutChildren t false).2 false).2.children).map
          Widget.windowRectangle =
        (widgetsOfList (layoutChildren t false).2.children).map Widget.windowRectangle ∧
      (widgetsOfList (layoutChildren (layoutChildren t false).2 false).2.children).all
          flagsOff = true) := by
  constructor
  · exact second_layoutPass (layoutPass t false).2 (calm_layoutPass t false)
  · cases t with
    | node w cs =>
        simp only [layoutChildren, WTree.children]
        exact second_processChildren w.offsetFromWindow _
          (calm_processChildren w.offsetFromWindow false cs)


end TTauri
